import Mathlib

/-!
Shallow embedding of the display power controller of the silent-clock
repository.  The repository contains several near-identical variants of an
always-on-display clock; each variant is embedded separately, faithful to its
own source:

* `app*`  — `src/src/App.tsx` (idle-timer variant with the hidden-video
  fallback keeper and the settings panel);
* `v1*`   — first document of `src/unnamed/part_000` (persistent AOD variant
  with `isOff` / `isPersistent` and re-acquisition on the `visible` signal);
* `v2*`   — second document of `src/unnamed/part_000` (plain idle-timer
  variant with an asynchronous, two-phase wake-lock request);
* `v3*`   — third document of `src/unnamed/part_000` (non-blocking wake-lock
  and fullscreen request, release treated as power-off);
* `v4*`   — fourth document of `src/unnamed/part_000` (awaiting variant:
  the wake-lock request is awaited before fullscreen is requested).

Wake locks and timers are identified by natural numbers drawn from counters in
the state.  Asynchronous platform behaviour (timer firings, wake-lock release
notifications, late promise resolutions) is modelled by explicit trace events.
-/

/-- Observable wake-lock status of `App.tsx` (`wakeLockStatus` state). -/
inductive WStatus
  | unknown
  | granted
  | denied
  | fallback
deriving DecidableEq, Repr

/-- Outcome of the platform primary wake-guarantee request: success, promise
rejection, or a synchronous throw at the call site. -/
inductive WOutcome
  | ok
  | errAsync
  | errSync
deriving DecidableEq, Repr

/-- Platform environment for a wake-guarantee request: whether the primary
capability exists (`'wakeLock' in navigator`) and how a request resolves. -/
structure WEnv where
  hasWakeLock : Bool
  primary : WOutcome
deriving DecidableEq, Repr

/-- Side-effect actions emitted by the embedded handlers, used to state
ordering properties (release before acquire, fallback after failure,
fullscreen relative to the await suspension point). -/
inductive Act
  | releaseL (h : Nat)
  | acquireL (h : Nat)
  | wakeIssue
  | setStatus (st : WStatus)
  | videoCreate
  | fallbackStart
  | fsIssue
  | suspend
  | exitFs
  | timerStart
  | warnLog
deriving DecidableEq, Repr

/-- State of the `App.tsx` component: the `useState` values, the refs, plus
bookkeeping for the platform (`held` = wake locks acquired and not yet
released, `timers` = scheduled and not yet cancelled or fired timeouts). -/
structure AppSt where
  isVisible : Bool
  showSetup : Bool
  status : WStatus
  ref : Option Nat
  held : List Nat
  videoExists : Bool
  videoPlaying : Bool
  timers : List (Nat × Nat)
  timerRef : Option Nat
  nextLock : Nat
  nextTimer : Nat
deriving DecidableEq, Repr

/-- Initial state of `App.tsx` (`useState` initialisers, empty refs). -/
def appInit : AppSt :=
  { isVisible := false, showSetup := false, status := .unknown, ref := none,
    held := [], videoExists := false, videoPlaying := false, timers := [],
    timerRef := none, nextLock := 0, nextTimer := 0 }

/-- Embeds `releaseWakeLock` of `App.tsx` (lines 28-41): release the current
lock if any, clear the ref, and stop and discard the fallback video. -/
def appReleaseWakeLock (s : AppSt) : AppSt :=
  let s1 :=
    match s.ref with
    | some h => { s with ref := none, held := s.held.erase h }
    | none => s
  { s1 with videoExists := false, videoPlaying := false }

/-- Embeds `turnOff` of `App.tsx` (lines 43-50): hide the clock, release the
wake lock and fallback, and cancel the pending idle timer. -/
def appTurnOff (s : AppSt) : AppSt :=
  let s1 := appReleaseWakeLock { s with isVisible := false }
  match s1.timerRef with
  | some id => { s1 with timers := s1.timers.filter (fun p => p.1 != id), timerRef := none }
  | none => s1

/-- Embeds `startTimer` of `App.tsx` (lines 52-57): cancel the pending timer
held in `timerRef`, then schedule a fresh 5000 ms timeout at `t + 5000`. -/
def appStartTimer (t : Nat) (s : AppSt) : AppSt :=
  let s1 :=
    match s.timerRef with
    | some id => { s with timers := s.timers.filter (fun p => p.1 != id) }
    | none => s
  { s1 with timers := s1.timers ++ [(s1.nextTimer, t + 5000)],
            timerRef := some s1.nextTimer, nextTimer := s1.nextTimer + 1 }

/-- Result of the `try` block of `requestWakeLock` in `App.tsx` (lines 62-78):
either a normal completion or an exception raised at some intermediate state
(the mutations made before the throw persist, since they go through refs). -/
inductive PRes
  | ok (s : AppSt) (acts : List Act)
  | raised (s : AppSt) (acts : List Act)
deriving DecidableEq, Repr

/-- Embeds the `try` block of `requestWakeLock` in `App.tsx` (lines 62-78):
release any existing lock first, then request a new one; on success store it,
set status `granted` and return.  A promise rejection and a synchronous throw
both surface as `PRes.raised` at the state reached so far. -/
def appPrimaryTry (env : WEnv) (s : AppSt) : PRes :=
  let (s1, a1) :=
    match s.ref with
    | some h => ({ s with ref := none, held := s.held.erase h }, [Act.releaseL h])
    | none => (s, [])
  match env.primary with
  | .ok =>
      let n := s1.nextLock
      .ok { s1 with ref := some n, held := s1.held ++ [n],
                    nextLock := n + 1, status := .granted }
          (a1 ++ [Act.wakeIssue, Act.acquireL n, Act.setStatus .granted])
  | .errAsync => .raised s1 (a1 ++ [Act.wakeIssue])
  | .errSync => .raised s1 (a1 ++ [Act.wakeIssue])

/-- Embeds the fallback section of `requestWakeLock` in `App.tsx`
(lines 86-108): create the hidden video element if absent, start it playing,
and record status `fallback`.  The DOM operations used here do not throw, so
the guarding `catch` branch of lines 104-108 is unreachable. -/
def appFallback (s : AppSt) (acts : List Act) : AppSt × Bool × List Act :=
  let (s1, a1) :=
    if s.videoExists then (s, ([] : List Act))
    else ({ s with videoExists := true }, [Act.videoCreate])
  ({ s1 with videoPlaying := true, status := .fallback }, true,
    acts ++ a1 ++ [Act.fallbackStart, Act.setStatus .fallback])

/-- Embeds `requestWakeLock` of `App.tsx` (lines 59-109): try the primary
wake-lock API when present; a failure is caught, recorded as status `denied`,
and execution falls through to the hidden-video fallback. -/
def appRequestWakeLock (env : WEnv) (s : AppSt) : AppSt × Bool × List Act :=
  if env.hasWakeLock then
    match appPrimaryTry env s with
    | .ok s1 acts => (s1, true, acts)
    | .raised s1 acts =>
        appFallback { s1 with status := .denied } (acts ++ [Act.setStatus .denied])
  else
    appFallback s []

/-- Embeds `handleInteraction` of `App.tsx` (lines 111-130): a no-op while the
settings panel is open; otherwise reset the idle timer if already visible, or
show the clock, fire-and-forget a wake-lock request, and start the timer. -/
def appHandleInteraction (env : WEnv) (t : Nat) (s : AppSt) : AppSt :=
  if s.showSetup then s
  else if s.isVisible then appStartTimer t s
  else appStartTimer t (appRequestWakeLock env { s with isVisible := true }).1

/-- Embeds the `release` listener attached in `requestWakeLock` of `App.tsx`
(lines 73-77): clear the ref only when the released lock is the one currently
stored. -/
def appReleaseListener (lock : Nat) (s : AppSt) : AppSt :=
  if s.ref = some lock then { s with ref := none } else s

/-- Trace events for the `App.tsx` controller: a user interaction at time `t`,
the firing of a scheduled timeout at time `t`, and the visibility monitor
reporting hidden. -/
inductive AEv
  | interact (t : Nat)
  | fire (t : Nat)
  | hide
deriving DecidableEq, Repr

/-- One trace step of the `App.tsx` controller.  A `fire t` event runs the
`setTimeout` callback `turnOff` when a scheduled, uncancelled timeout has
deadline `t`, and is a no-op otherwise (cancelled timers never fire, and a
timer fires only at its deadline). -/
def appStep (env : WEnv) (s : AppSt) : AEv → AppSt
  | .interact t => appHandleInteraction env t s
  | .fire t =>
      if s.timers.any (fun p => p.2 == t) then
        appTurnOff { s with timers := s.timers.filter (fun p => p.2 != t) }
      else s
  | .hide => appTurnOff s

/-- Runs the `App.tsx` controller over a list of trace events. -/
def appRun (env : WEnv) (s : AppSt) (evs : List AEv) : AppSt :=
  evs.foldl (appStep env) s

/-- Time of a trace event. -/
def evTime : AEv → Nat
  | .interact t => t
  | .fire t => t
  | .hide => 0

/-- Checks a continuation of a trace given the time `t` of the last
interaction: events move forward in time, every further interaction comes
less than 5000 ms after the previous one, and timer firings are only
considered within that same window (any later firing would be at or after the
idle deadline, i.e. outside the scenario of claim C1). -/
def okFrom (t : Nat) : List AEv → Bool
  | [] => true
  | .interact u :: r => decide (t ≤ u) && decide (u - t < 5000) && okFrom u r
  | .fire u :: r => decide (t ≤ u) && decide (u - t < 5000) && okFrom t r
  | .hide :: _ => false

/-- Time of the last interaction of a trace, defaulting to `t`. -/
def lastInteract (t : Nat) : List AEv → Nat
  | [] => t
  | .interact u :: r => lastInteract u r
  | _ :: r => lastInteract t r

/-- Listener attached to a wake lock in the persistent AOD variant (first
document of `part_000`).  React event-handler closures capture the state
values of the render in which they were created, so the listeners carry the
captured `isPersistent` / `isOff` values of the `requestWakeLock` closure they
invoke.  `noL` marks the lock acquired in `handleVisibilityChange`
(lines 86-88), which attaches no listener. -/
inductive V1L
  | fromPowerOn (capP capO : Bool)
  | fromReq (capP capO : Bool)
  | noL
deriving DecidableEq, Repr

/-- Wake lock of the persistent AOD variant: an identifier plus the release
listener attached to it. -/
structure V1Lock where
  id : Nat
  listener : V1L
deriving DecidableEq, Repr

/-- State of the persistent AOD variant (first document of `part_000`):
`useState` values, the wake-lock ref, the platform visibility, and the queue
of `release` events dispatched but not yet handled (the WakeLockSentinel fires
its `release` event in a queued task, not synchronously inside `release()`). -/
structure V1St where
  isOff : Bool
  isPersistent : Bool
  isDimmed : Bool
  visible : Bool
  ref : Option V1Lock
  queue : List V1Lock
  nextId : Nat
deriving DecidableEq, Repr

/-- Initial state of the persistent AOD variant: starts off
(`useState(true)` for `isOff`), persistent, visible. -/
def v1Init : V1St :=
  { isOff := true, isPersistent := true, isDimmed := false, visible := true,
    ref := none, queue := [], nextId := 0 }

/-- Embeds `requestWakeLock` of the persistent AOD variant (lines 33-67),
as invoked from a closure that captured `isPersistent = capP` and
`isOff = capO`: return immediately when the captured `isOff` is true
(line 39); otherwise release the existing lock (queueing its `release`
event) and acquire a fresh lock carrying this closure's release listener. -/
def v1RequestWakeLock (capP capO : Bool) (s : V1St) : V1St × List Act :=
  if capO then (s, [])
  else
    let (s1, a1) :=
      match s.ref with
      | some l => ({ s with queue := s.queue ++ [l] }, [Act.releaseL l.id])
      | none => (s, ([] : List Act))
    let lock : V1Lock := ⟨s1.nextId, .fromReq capP capO⟩
    ({ s1 with ref := some lock, nextId := s1.nextId + 1 },
      a1 ++ [Act.wakeIssue, Act.acquireL lock.id])

/-- Runs the release listener of a lock in the persistent AOD variant.
`fromPowerOn` (lines 121-128): clear the ref; if the document is visible,
call the captured `requestWakeLock`.  `fromReq` (lines 51-59): clear the ref;
if the captured `isPersistent && !isOff` holds and the document is visible,
call the captured `requestWakeLock`.  `noL`: nothing runs. -/
def v1ListenerRun (l : V1Lock) (s : V1St) : V1St × List Act :=
  match l.listener with
  | .fromPowerOn capP capO =>
      let s1 := { s with ref := none }
      if s1.visible then v1RequestWakeLock capP capO s1 else (s1, [])
  | .fromReq capP capO =>
      let s1 := { s with ref := none }
      if capP && !capO && s1.visible then v1RequestWakeLock capP capO s1 else (s1, [])
  | .noL => (s, [])

/-- Trace events of the persistent AOD variant: power-on tap on the off
screen, double-tap power-off, tap on the active screen, a visibility change,
a platform-initiated release of the held lock, and the dispatch of the oldest
queued `release` event. -/
inductive V1Ev
  | powerOn
  | powerOff
  | tap
  | setVis (b : Bool)
  | revoke
  | dispatchRel
deriving DecidableEq, Repr

/-- One trace step of the persistent AOD variant.

`powerOn` embeds `handlePowerOn` (lines 113-145), reachable only from the off
screen: clear `isOff`, set `isPersistent`, request the wake lock in the same
tick and attach the release listener of lines 121-128 (whose captured
`requestWakeLock` closure comes from the off-screen render, hence
`capO = s.isOff = true`), then request fullscreen.

`powerOff` embeds `handlePowerOff` (lines 103-111), reachable only from the
active screen: set `isOff`, clear `isPersistent`, release the held lock
(queueing its `release` event) and exit fullscreen.

`tap` embeds `handleTap` (lines 147-149).  `setVis` embeds
`handleVisibilityChange` (lines 81-94): on becoming visible while persistent
and not off, directly request a new lock with no release listener; the hidden
signal is not handled.  `revoke` is the platform ending the held lock: its
`release` event is queued.  `dispatchRel` delivers the oldest queued
`release` event to its listener. -/
def v1Step (s : V1St) : V1Ev → V1St × List Act
  | .powerOn =>
      if s.isOff then
        let s1 := { s with isOff := false, isPersistent := true }
        let lock : V1Lock := ⟨s1.nextId, .fromPowerOn s.isPersistent s.isOff⟩
        ({ s1 with ref := some lock, nextId := s1.nextId + 1 },
          [Act.wakeIssue, Act.acquireL lock.id, Act.fsIssue])
      else (s, [])
  | .powerOff =>
      if s.isOff then (s, [])
      else
        let s1 := { s with isOff := true, isPersistent := false }
        match s1.ref with
        | some l =>
            ({ s1 with ref := none, queue := s1.queue ++ [l] },
              [Act.releaseL l.id, Act.exitFs])
        | none => (s1, [Act.exitFs])
  | .tap => (if s.isOff then s else { s with isDimmed := !s.isDimmed }, [])
  | .setVis b =>
      let s1 := { s with visible := b }
      if b && s.isPersistent && !s.isOff then
        let lock : V1Lock := ⟨s1.nextId, .noL⟩
        ({ s1 with ref := some lock, nextId := s1.nextId + 1 },
          [Act.wakeIssue, Act.acquireL lock.id])
      else (s1, [])
  | .revoke =>
      match s.ref with
      | some l => ({ s with queue := s.queue ++ [l] }, [])
      | none => (s, [])
  | .dispatchRel =>
      match s.queue with
      | [] => (s, [])
      | l :: rest => v1ListenerRun l { s with queue := rest }

/-- Runs the persistent AOD variant over a list of trace events, accumulating
the emitted actions. -/
def v1RunA (s : V1St) : List V1Ev → V1St × List Act
  | [] => (s, [])
  | e :: r =>
      let p := v1Step s e
      let q := v1RunA p.1 r
      (q.1, p.2 ++ q.2)

/-- Runs the persistent AOD variant over a list of trace events. -/
def v1Run (evs : List V1Ev) : V1St := (v1RunA v1Init evs).1

/-- State of the plain idle-timer variant (second document of `part_000`,
lines 232-363): the `useState` values and refs, plus `pending` (wake-lock
requests issued whose promise has not resolved yet), `held` (locks granted
and not yet released), and the scheduled timers. -/
structure V2St where
  isVisible : Bool
  ref : Option Nat
  pending : List Nat
  held : List Nat
  timers : List (Nat × Nat)
  timerRef : Option Nat
  nextLock : Nat
  nextTimer : Nat
deriving DecidableEq, Repr

/-- Initial state of the plain idle-timer variant. -/
def v2Init : V2St :=
  { isVisible := false, ref := none, pending := [], held := [], timers := [],
    timerRef := none, nextLock := 0, nextTimer := 0 }

/-- Embeds `startTimer` of the plain idle-timer variant (lines 267-272). -/
def v2StartTimer (t : Nat) (s : V2St) : V2St :=
  let s1 :=
    match s.timerRef with
    | some id => { s with timers := s.timers.filter (fun p => p.1 != id) }
    | none => s
  { s1 with timers := s1.timers ++ [(s1.nextTimer, t + 5000)],
            timerRef := some s1.nextTimer, nextTimer := s1.nextTimer + 1 }

/-- Embeds `turnOff` of the plain idle-timer variant (lines 258-265): hide
the clock, release the held lock via `releaseWakeLock` (lines 249-256), and
cancel the pending timer. -/
def v2TurnOff (s : V2St) : V2St :=
  let s1 :=
    match s.ref with
    | some h => { s with isVisible := false, ref := none, held := s.held.erase h }
    | none => { s with isVisible := false }
  match s1.timerRef with
  | some id => { s1 with timers := s1.timers.filter (fun p => p.1 != id), timerRef := none }
  | none => s1

/-- Trace events of the plain idle-timer variant: interaction, timer firing,
visibility hidden, resolution or rejection of a pending wake-lock request,
and the `release` event of a granted lock. -/
inductive V2Ev
  | interact (t : Nat)
  | fire (t : Nat)
  | hide
  | resolve (r : Nat)
  | reject (r : Nat)
  | releaseEv (h : Nat)
deriving DecidableEq, Repr

/-- One trace step of the plain idle-timer variant.  `interact` embeds
`handleInteraction` (lines 274-308): reset the timer if visible, otherwise
show the clock, issue the wake-lock request (two-phase: its resolution is the
separate `resolve` event) and start the timer.  `resolve r` embeds the `then`
handler of lines 289-296: the returned lock is stored in the ref
unconditionally — there is no check that the session is still active.
`releaseEv h` embeds the release listener of lines 291-295 together with the
platform forgetting the lock. -/
def v2Step (hasWL : Bool) (s : V2St) : V2Ev → V2St
  | .interact t =>
      if s.isVisible then v2StartTimer t s
      else
        let s1 := { s with isVisible := true }
        let s2 :=
          if hasWL then
            { s1 with pending := s1.pending ++ [s1.nextLock], nextLock := s1.nextLock + 1 }
          else s1
        v2StartTimer t s2
  | .fire t =>
      if s.timers.any (fun p => p.2 == t) then
        v2TurnOff { s with timers := s.timers.filter (fun p => p.2 != t) }
      else s
  | .hide => v2TurnOff s
  | .resolve r =>
      if s.pending.contains r then
        { s with pending := s.pending.erase r, ref := some r, held := s.held ++ [r] }
      else s
  | .reject r => { s with pending := s.pending.erase r }
  | .releaseEv h =>
      let s1 := { s with held := s.held.erase h }
      if s1.ref = some h then { s1 with ref := none } else s1

/-- Runs the plain idle-timer variant over a list of trace events. -/
def v2Run (hasWL : Bool) (s : V2St) (evs : List V2Ev) : V2St :=
  evs.foldl (v2Step hasWL) s

/-- Embeds the `release` listener of the plain idle-timer variant
(lines 291-295): clear the ref only when the released lock is the one
currently stored. -/
def v2ReleaseListener (lock : Nat) (s : V2St) : V2St :=
  if s.ref = some lock then { s with ref := none } else s

/-- Platform environment for the V3/V4 activation handlers: the wake-lock
capability, the request outcome, and the fullscreen preconditions
(`document.fullscreenEnabled`, `document.fullscreenElement`). -/
structure FsEnv where
  hasWakeLock : Bool
  primary : WOutcome
  fsEnabled : Bool
  fsElement : Bool
deriving DecidableEq, Repr

/-- State shared by the third and fourth documents of `part_000`
(`showClock`, the wake-lock ref, and the idle-timer bookkeeping). -/
structure V34St where
  showClock : Bool
  ref : Option Nat
  timers : List (Nat × Nat)
  timerRef : Option Nat
  nextLock : Nat
  nextTimer : Nat
deriving DecidableEq, Repr

/-- Initial state of the V3/V4 variants. -/
def v34Init : V34St :=
  { showClock := false, ref := none, timers := [], timerRef := none,
    nextLock := 0, nextTimer := 0 }

/-- Embeds `startTimer` of the V3/V4 variants (lines 419-424 and 585-590). -/
def v34StartTimer (t : Nat) (s : V34St) : V34St :=
  let s1 :=
    match s.timerRef with
    | some id => { s with timers := s.timers.filter (fun p => p.1 != id) }
    | none => s
  { s1 with timers := s1.timers ++ [(s1.nextTimer, t + 5000)],
            timerRef := some s1.nextTimer, nextTimer := s1.nextTimer + 1 }

/-- Embeds `handlePowerOff` of the third document of `part_000`
(lines 407-417): hide the clock, release the wake lock, cancel the pending
timer, exit fullscreen. -/
def v3HandlePowerOff (s : V34St) : V34St :=
  let s1 := { s with showClock := false, ref := none }
  match s1.timerRef with
  | some id => { s1 with timers := s1.timers.filter (fun p => p.1 != id), timerRef := none }
  | none => s1

/-- Embeds `handlePowerOn` of the third document of `part_000`
(lines 426-473), the non-blocking variant: if the clock is already shown,
only reset the timer; otherwise show the clock, issue the wake-lock request
without awaiting it (promise rejections and synchronous throws are both
caught and only logged), then request fullscreen in the same synchronous
turn, then start the timer.  The emitted action list records the order of the
side effects within the handler's synchronous turn; no `suspend` action
occurs because the handler never awaits. -/
def v3HandlePowerOn (env : FsEnv) (t : Nat) (s : V34St) : V34St × List Act :=
  if s.showClock then (v34StartTimer t s, [Act.timerStart])
  else
    let s1 := { s with showClock := true }
    let a2 :=
      if env.hasWakeLock then
        match env.primary with
        | .ok => [Act.wakeIssue]
        | .errAsync => [Act.wakeIssue, Act.warnLog]
        | .errSync => [Act.wakeIssue, Act.warnLog]
      else ([] : List Act)
    let a3 := if env.fsEnabled && !env.fsElement then [Act.fsIssue] else ([] : List Act)
    (v34StartTimer t s1, a2 ++ a3 ++ [Act.timerStart])

/-- Embeds the `release` listener of the third document of `part_000`
(lines 443-447): when the released lock is the one currently stored, power
off; a stale lock's release does nothing. -/
def v3ReleaseListener (lock : Nat) (s : V34St) : V34St :=
  if s.ref = some lock then v3HandlePowerOff s else s

/-- Embeds `handlePowerOn` of the fourth document of `part_000`
(lines 592-616), the awaiting variant: if the clock is already shown, only
reset the timer; otherwise show the clock and `await` the wake-lock request
before requesting fullscreen.  The `suspend` action marks the await
suspension point: on success or promise rejection the handler suspends and
the fullscreen request runs in a later turn; a synchronous throw happens
before any suspension, so no `suspend` is emitted in that case. -/
def v4HandlePowerOn (env : FsEnv) (t : Nat) (s : V34St) : V34St × List Act :=
  if s.showClock then (v34StartTimer t s, [Act.timerStart])
  else
    let s1 := { s with showClock := true }
    let (s2, a2) :=
      if env.hasWakeLock then
        match env.primary with
        | .ok =>
            ({ s1 with ref := some s1.nextLock, nextLock := s1.nextLock + 1 },
              [Act.wakeIssue, Act.suspend, Act.acquireL s1.nextLock])
        | .errAsync => (s1, [Act.wakeIssue, Act.suspend, Act.warnLog])
        | .errSync => (s1, [Act.wakeIssue, Act.warnLog])
      else (s1, ([] : List Act))
    let a3 := if env.fsEnabled && !env.fsElement then [Act.fsIssue] else ([] : List Act)
    (v34StartTimer t s2, a2 ++ a3 ++ [Act.timerStart])

/-- True when the fullscreen request of an action list is issued before any
await suspension point, i.e. in the same synchronous turn as the triggering
gesture. -/
def fsBeforeSuspend (l : List Act) : Bool :=
  (l.takeWhile (fun a => a != Act.suspend)).contains Act.fsIssue

lemma appTurnOff_spec (s : AppSt) :
    (appTurnOff s).isVisible = false ∧ (appTurnOff s).ref = none ∧
    (appTurnOff s).videoPlaying = false ∧ (appTurnOff s).videoExists = false ∧
    (appTurnOff s).timerRef = none := by
  rcases s with ⟨iv, ss, st, ref, held, ve, vp, tms, tr, nl, nt⟩
  cases ref <;> cases tr <;> simp [appTurnOff, appReleaseWakeLock]

lemma v2TurnOff_spec (s : V2St) :
    (v2TurnOff s).isVisible = false ∧ (v2TurnOff s).ref = none ∧
    (v2TurnOff s).timerRef = none := by
  rcases s with ⟨iv, ref, pend, held, tms, tr, nl, nt⟩
  cases ref <;> cases tr <;> simp [v2TurnOff]

/-- C9: while the settings/permissions panel is open, a tap on the main
surface is a no-op for the power controller — `handleInteraction` returns
without activating the session, resetting the idle timer, or changing any
state (`App.tsx` lines 111-113). -/
theorem c9_setup_tap_noop (env : WEnv) (t : Nat) (s : AppSt)
    (h : s.showSetup = true) : appHandleInteraction env t s = s := by
  simp [appHandleInteraction, h]

/-- Witness for C9 at a concrete state with the settings panel open. -/
theorem c9_setup_tap_noop_witness :
    ({ appInit with showSetup := true } : AppSt).showSetup = true ∧
    appHandleInteraction ⟨true, .ok⟩ 7 { appInit with showSetup := true }
      = { appInit with showSetup := true } :=
  ⟨rfl, c9_setup_tap_noop ⟨true, .ok⟩ 7 _ rfl⟩

/-- C10: a `released` notification from a superseded wake lock (one that is
not the currently stored handle) has no effect: in `App.tsx` (lines 73-77)
and the second document of `part_000` (lines 291-295) the listener clears the
ref only when the released lock is the stored one, and in the third document
(lines 443-447) it powers off only when the released lock is the stored one;
a stale release leaves the state unchanged. -/
theorem c10_stale_release_noop (s : AppSt) (s2 : V2St) (s3 : V34St)
    (a b c : Nat) :
    (s.ref ≠ some a → appReleaseListener a s = s) ∧
    (s.ref = some a → appReleaseListener a s = { s with ref := none }) ∧
    (s2.ref ≠ some b → v2ReleaseListener b s2 = s2) ∧
    (s3.ref ≠ some c → v3ReleaseListener c s3 = s3) ∧
    (s3.ref = some c → v3ReleaseListener c s3 = v3HandlePowerOff s3) := by
  refine ⟨fun h => ?_, fun h => ?_, fun h => ?_, fun h => ?_, fun h => ?_⟩ <;>
    simp [appReleaseListener, v2ReleaseListener, v3ReleaseListener, h]

/-- Witness for C10: a stale release (ref is another lock) changes nothing,
at concrete states. -/
theorem c10_stale_release_noop_witness :
    (({ appInit with ref := some 3 } : AppSt).ref ≠ some 5) ∧
    appReleaseListener 5 { appInit with ref := some 3 }
      = { appInit with ref := some 3 } ∧
    v2ReleaseListener 5 v2Init = v2Init ∧
    v3ReleaseListener 5 v34Init = v34Init := by
  refine ⟨by decide, ?_, ?_, ?_⟩
  · exact (c10_stale_release_noop { appInit with ref := some 3 } v2Init v34Init 5 5 5).1
      (by decide)
  · exact (c10_stale_release_noop { appInit with ref := some 3 } v2Init v34Init 5 5 5).2.2.1
      (by decide)
  · exact (c10_stale_release_noop { appInit with ref := some 3 } v2Init v34Init 5 5 5).2.2.2.1
      (by decide)

/-- C2 counterexample: in the persistent AOD variant (first document of
`part_000`, the `handleVisibilityChange` of lines 81-94 cited by the claim),
the hidden signal is not handled at all: after powering on and going hidden,
the controller is still active (`isOff = false`) and still holds its wake
handle, contradicting the claim that hide() unconditionally yields Off with
the WakeHandle released. -/
theorem c2_hide_counterexample :
    (v1Run [V1Ev.powerOn, V1Ev.setVis false]).isOff = false ∧
    (v1Run [V1Ev.powerOn, V1Ev.setVis false]).ref.isSome = true := by decide

/-- C2 amended: in the idle-timer variants the hidden signal unconditionally
turns the session off — `App.tsx` (lines 132-140) and the second document of
`part_000` (lines 311-319) run `turnOff`, which hides the clock, clears the
wake-lock ref, stops and discards the fallback video, and cancels the idle
timer, from every state; in the persistent AOD variant (first document of
`part_000`) the hidden signal merely records the visibility and changes
nothing else (re-acquisition happens on the visible signal instead). -/
theorem c2_hide_amended (env : WEnv) (s : AppSt) (s2 : V2St) (s1 : V1St) :
    ((appStep env s .hide).isVisible = false ∧ (appStep env s .hide).ref = none ∧
     (appStep env s .hide).videoPlaying = false ∧
     (appStep env s .hide).videoExists = false ∧
     (appStep env s .hide).timerRef = none) ∧
    ((v2Step true s2 .hide).isVisible = false ∧ (v2Step true s2 .hide).ref = none ∧
     (v2Step true s2 .hide).timerRef = none) ∧
    v1Step s1 (V1Ev.setVis false) = ({ s1 with visible := false }, []) := by
  refine ⟨?_, ?_, ?_⟩
  · simpa [appStep] using appTurnOff_spec s
  · simpa [v2Step] using v2TurnOff_spec s2
  · simp [v1Step]

/-- C8 counterexample: in the awaiting variant (fourth document of
`part_000`, lines 592-616, cited by the claim), activation awaits the
wake-guarantee request before requesting fullscreen: with the capability
present and a granting platform, the fullscreen request is issued but not
before the await suspension point, contradicting the claim that every
activation issues fullscreen in the same synchronous turn as the gesture. -/
theorem c8_counterexample :
    Act.fsIssue ∈ (v4HandlePowerOn ⟨true, .ok, true, false⟩ 0 v34Init).2 ∧
    fsBeforeSuspend (v4HandlePowerOn ⟨true, .ok, true, false⟩ 0 v34Init).2 = false := by
  decide

/-- C8 amended: in the non-blocking variant (third document of `part_000`,
lines 426-473) the fullscreen request, when issued, is always issued in the
same synchronous turn as the gesture, before any await suspension point; in
the awaiting variant (fourth document, lines 592-616), whenever the primary
wake capability is present and the request does not throw synchronously, the
handler suspends on the await first, and the fullscreen request is issued
only in a later turn. -/
theorem c8_fullscreen_turn_amended (env : FsEnv) (t : Nat) (s : V34St) :
    (Act.fsIssue ∈ (v3HandlePowerOn env t s).2 →
       fsBeforeSuspend (v3HandlePowerOn env t s).2 = true) ∧
    (s.showClock = false → env.hasWakeLock = true →
     (env.primary = .ok ∨ env.primary = .errAsync) →
     Act.fsIssue ∈ (v4HandlePowerOn env t s).2 →
       fsBeforeSuspend (v4HandlePowerOn env t s).2 = false) := by
  obtain ⟨hw, pr, fe, fel⟩ := env
  constructor
  · intro hmem
    cases hsc : s.showClock <;>
      cases hw <;> cases pr <;> cases fe <;> cases fel <;>
        simp [v3HandlePowerOn, hsc, fsBeforeSuspend] at hmem ⊢
  · intro hsc hw' hpr hmem
    subst hw'
    rcases hpr with h | h <;> subst h <;>
      cases fe <;> cases fel <;>
        simp [v4HandlePowerOn, hsc, fsBeforeSuspend] at hmem ⊢

/-- Witness for C8's amended theorem: the non-blocking variant issues
fullscreen in the same turn at a concrete granting environment. -/
theorem c8_fullscreen_turn_witness :
    Act.fsIssue ∈ (v3HandlePowerOn ⟨true, .ok, true, false⟩ 0 v34Init).2 ∧
    fsBeforeSuspend (v3HandlePowerOn ⟨true, .ok, true, false⟩ 0 v34Init).2 = true :=
  ⟨by decide, (c8_fullscreen_turn_amended ⟨true, .ok, true, false⟩ 0 v34Init).1 (by decide)⟩

/-- True when the primary wake guarantee does not succeed: the capability is
absent (`Unavailable`) or the request is rejected or throws (`Denied`). -/
def primaryFails (env : WEnv) : Bool :=
  !env.hasWakeLock || decide (env.primary ≠ WOutcome.ok)

/-- C3: whenever the primary wake-guarantee request fails with unavailability
or denial, `requestWakeLock` of `App.tsx` starts the Fallback Keeper exactly
once and the exposed status becomes `fallback` (never `granted`); the
fallback is started only after the primary provider failed — on denial the
`denied` status is recorded before `fallbackStart` appears in the action
trace, and on success the fallback is never started. -/
theorem c3_fallback_on_failure (env : WEnv) (s : AppSt) :
    (primaryFails env = true →
       (appRequestWakeLock env s).1.status = WStatus.fallback ∧
       (appRequestWakeLock env s).1.videoPlaying = true ∧
       (appRequestWakeLock env s).2.1 = true ∧
       (appRequestWakeLock env s).2.2.count Act.fallbackStart = 1) ∧
    (env.hasWakeLock = true → env.primary ≠ WOutcome.ok →
       Act.setStatus WStatus.denied ∈
         (appRequestWakeLock env s).2.2.takeWhile (fun a => a != Act.fallbackStart)) ∧
    (env.hasWakeLock = true → env.primary = WOutcome.ok →
       Act.fallbackStart ∉ (appRequestWakeLock env s).2.2 ∧
       (appRequestWakeLock env s).1.status = WStatus.granted) := by
  obtain ⟨hw, pr⟩ := env
  cases hw <;> cases pr <;>
    cases hr : s.ref <;> cases hv : s.videoExists <;>
      simp [primaryFails, appRequestWakeLock, appPrimaryTry, appFallback, hr, hv,
        List.count_cons, List.count_append]

/-- Witness for C3 at a concrete denied environment. -/
theorem c3_fallback_on_failure_witness :
    primaryFails ⟨true, .errAsync⟩ = true ∧
    (appRequestWakeLock ⟨true, .errAsync⟩ appInit).1.status = WStatus.fallback ∧
    (appRequestWakeLock ⟨true, .errAsync⟩ appInit).2.2.count Act.fallbackStart = 1 := by
  refine ⟨by decide, ?_, ?_⟩
  · exact ((c3_fallback_on_failure ⟨true, .errAsync⟩ appInit).1 (by decide)).1
  · exact ((c3_fallback_on_failure ⟨true, .errAsync⟩ appInit).1 (by decide)).2.2.2

/-- C4: no duplicate wake guarantee is ever leaked.  Activating twice in
succession in `App.tsx` leaves exactly one held wake lock; and a
`requestWakeLock` call made while a previous handle is still held first
releases the previous handle and only then acquires the new one (the action
trace is exactly release-then-acquire), so two requests in a row from a clean
state also leave exactly one held lock. -/
theorem c4_single_wake_handle (env : WEnv)
    (h1 : env.hasWakeLock = true) (h2 : env.primary = WOutcome.ok) :
    (∀ t0 t1 : Nat,
       (appRun env appInit [AEv.interact t0, AEv.interact t1]).held = [0] ∧
       (appRun env appInit [AEv.interact t0, AEv.interact t1]).ref = some 0) ∧
    (∀ (s : AppSt) (h : Nat), s.ref = some h →
       (appRequestWakeLock env s).2.2
         = [Act.releaseL h, Act.wakeIssue, Act.acquireL s.nextLock,
            Act.setStatus .granted] ∧
       (appRequestWakeLock env s).1.ref = some s.nextLock ∧
       (appRequestWakeLock env s).1.held = s.held.erase h ++ [s.nextLock]) ∧
    (∀ s : AppSt, s.ref = none → s.held = [] →
       (appRequestWakeLock env (appRequestWakeLock env s).1).1.held = [s.nextLock + 1] ∧
       (appRequestWakeLock env (appRequestWakeLock env s).1).1.ref
         = some (s.nextLock + 1)) := by
  obtain ⟨hw, pr⟩ := env
  subst h1; subst h2
  refine ⟨fun t0 t1 => ?_, fun s h hr => ?_, fun s hr hh => ?_⟩
  · simp [appRun, appStep, appHandleInteraction, appRequestWakeLock, appPrimaryTry,
      appStartTimer, appInit]
  · simp [appRequestWakeLock, appPrimaryTry, hr]
  · simp [appRequestWakeLock, appPrimaryTry, hr, hh]

/-- Witness for C4: double activation at a concrete granting environment
holds exactly one lock. -/
theorem c4_single_wake_handle_witness :
    (⟨true, .ok⟩ : WEnv).hasWakeLock = true ∧ (⟨true, .ok⟩ : WEnv).primary = .ok ∧
    (appRun ⟨true, .ok⟩ appInit [AEv.interact 0, AEv.interact 1]).held = [0] :=
  ⟨rfl, rfl, ((c4_single_wake_handle ⟨true, .ok⟩ rfl rfl).1 0 1).1⟩

/-- C7: a wake-guarantee rejection is caught, not propagated.  In `App.tsx`,
whenever the request does not succeed the `try` body of `requestWakeLock`
raises (promise rejection or synchronous throw alike), the enclosing `catch`
records the non-fatal `denied` status in the exposed state and the function
continues into the fallback instead of rethrowing — the overall result is
exactly the fallback applied to the caught state; synchronous throws and
asynchronous rejections produce identical results, both in `App.tsx` and in
`handlePowerOn` of the third document of `part_000` (lines 437-470). -/
theorem c7_denied_nonfatal (env : WEnv) (s : AppSt) :
    (env.primary ≠ WOutcome.ok →
       ∃ s1 acts, appPrimaryTry env s = PRes.raised s1 acts) ∧
    (env.hasWakeLock = true → env.primary ≠ WOutcome.ok →
       Act.setStatus WStatus.denied ∈ (appRequestWakeLock env s).2.2) ∧
    (env.hasWakeLock = true → ∀ s1 acts, appPrimaryTry env s = PRes.raised s1 acts →
       appRequestWakeLock env s
         = appFallback { s1 with status := .denied } (acts ++ [Act.setStatus .denied])) ∧
    (appRequestWakeLock ⟨env.hasWakeLock, .errSync⟩ s
       = appRequestWakeLock ⟨env.hasWakeLock, .errAsync⟩ s) ∧
    (∀ (fsE : Bool) (fsEl : Bool) (t : Nat) (s3 : V34St),
       v3HandlePowerOn ⟨env.hasWakeLock, .errSync, fsE, fsEl⟩ t s3
         = v3HandlePowerOn ⟨env.hasWakeLock, .errAsync, fsE, fsEl⟩ t s3) := by
  obtain ⟨hw, pr⟩ := env
  refine ⟨fun hpr => ?_, fun hhw hpr => ?_, fun hhw s1 acts hraise => ?_,
    ?_, fun fsE fsEl t s3 => ?_⟩
  · cases pr <;> simp_all <;> exact ⟨_, _, rfl⟩
  · subst hhw
    cases pr <;> cases hr : s.ref <;> cases hv : s.videoExists <;>
      simp_all [appRequestWakeLock, appPrimaryTry, appFallback]
  · subst hhw
    simp [appRequestWakeLock, hraise]
  · cases hw <;> cases hr : s.ref <;>
      simp [appRequestWakeLock, appPrimaryTry, hr]
  · cases hw <;> cases hsc : s3.showClock <;>
      simp [v3HandlePowerOn, hsc]

/-- Witness for C7 at a concrete rejecting environment. -/
theorem c7_denied_nonfatal_witness :
    (⟨true, .errAsync⟩ : WEnv).primary ≠ WOutcome.ok ∧
    Act.setStatus WStatus.denied ∈ (appRequestWakeLock ⟨true, .errAsync⟩ appInit).2.2 :=
  ⟨by decide, (c7_denied_nonfatal ⟨true, .errAsync⟩ appInit).2.1 rfl (by decide)⟩

/-- C6 counterexample: in the second document of `part_000` the wake-lock
success handler (lines 289-296, cited by the claim) stores the returned lock
without checking that the session is still active.  After an interaction
issues a request, the surface goes hidden (deactivating the session), and the
request then resolves, the session is inactive (`isVisible = false`) yet a
WakeHandle is stored and outstanding — contradicting the claimed invariant
and the claimed discarding of stale handles. -/
theorem c6_stale_handle_counterexample :
    (v2Run true v2Init [V2Ev.interact 0, V2Ev.hide, V2Ev.resolve 0]).isVisible = false ∧
    (v2Run true v2Init [V2Ev.interact 0, V2Ev.hide, V2Ev.resolve 0]).ref = some 0 ∧
    (v2Run true v2Init [V2Ev.interact 0, V2Ev.hide, V2Ev.resolve 0]).held = [0] := by
  decide

/-- C6 amended: at the moment the session is deactivated, the stored
WakeHandle is released and (in `App.tsx`) the Fallback Keeper stopped; but a
wake-guarantee success arriving after deactivation is stored without any
check against the current session, so an outstanding WakeHandle can exist
while the session is inactive (it is only discarded later when its own
release event fires, via the ref-equality guard of the release listener). -/
theorem c6_stale_handle_amended (s : V2St) (sa : AppSt) (r h : Nat) :
    ((v2TurnOff s).isVisible = false ∧ (v2TurnOff s).ref = none ∧
     (s.ref = some h → (v2TurnOff s).held = s.held.erase h)) ∧
    ((appTurnOff sa).isVisible = false ∧ (appTurnOff sa).ref = none ∧
     (appTurnOff sa).videoPlaying = false) ∧
    (r ∈ s.pending → (v2Step true s (V2Ev.resolve r)).ref = some r) := by
  refine ⟨⟨(v2TurnOff_spec s).1, (v2TurnOff_spec s).2.1, fun hr => ?_⟩,
    ⟨(appTurnOff_spec sa).1, (appTurnOff_spec sa).2.1, (appTurnOff_spec sa).2.2.1⟩,
    fun hp => ?_⟩
  · rcases s with ⟨iv, ref, pend, held, tms, tr, nl, nt⟩
    simp only at hr
    subst hr
    cases tr <;> simp [v2TurnOff]
  · simp [v2Step, hp]

/-- Witness for C6's amended theorem at concrete inputs. -/
theorem c6_stale_handle_witness :
    (({ v2Init with ref := some 2, held := [2] } : V2St).ref = some 2) ∧
    (v2TurnOff { v2Init with ref := some 2, held := [2] }).held = [2].erase 2 ∧
    (0 ∈ ({ v2Init with pending := [0] } : V2St).pending) ∧
    (v2Step true { v2Init with pending := [0] } (V2Ev.resolve 0)).ref = some 0 := by
  refine ⟨rfl, ?_, by decide, ?_⟩
  · exact (c6_stale_handle_amended { v2Init with ref := some 2, held := [2] }
      appInit 0 2).1.2.2 rfl
  · exact (c6_stale_handle_amended { v2Init with pending := [0] }
      appInit 0 2).2.2 (by decide)


/-- A wake lock of the persistent AOD variant is benign when its release
listener either is absent or is the `handlePowerOn` listener whose captured
`requestWakeLock` closure comes from an off-screen render (captured
`isOff = true`, so the call returns at line 39).  The `fromReq` listener,
whose guarded re-request could actually fire, is attached only inside a
`requestWakeLock` body that never runs in the real system. -/
def v1OkL (l : V1Lock) : Bool :=
  match l.listener with
  | .noL => true
  | .fromPowerOn _ capO => capO
  | .fromReq _ _ => false

/-- Reachability invariant of the persistent AOD variant: the stored lock and
every lock with a queued release event are benign, and after a power-off no
lock is stored. -/
def v1Inv (s : V1St) : Bool :=
  s.ref.all v1OkL && s.queue.all v1OkL && (!s.isOff || s.ref.isNone)

lemma v1Inv_init : v1Inv v1Init = true := rfl

lemma v1ListenerRun_ok {l : V1Lock} (s : V1St) (h : v1OkL l = true) :
    v1ListenerRun l s = (s, []) ∨ v1ListenerRun l s = ({ s with ref := none }, []) := by
  obtain ⟨id, lst⟩ := l
  cases lst with
  | noL => left; rfl
  | fromPowerOn p o =>
      right
      have ho : o = true := by simpa [v1OkL] using h
      subst ho
      cases hv : s.visible <;> simp [v1ListenerRun, v1RequestWakeLock, hv]
  | fromReq p o => simp [v1OkL] at h

lemma optAll_some {α : Type} (p : α → Bool) (a : α) : (some a).all p = p a := rfl

lemma optAll_none {α : Type} (p : α → Bool) : (none : Option α).all p = true := rfl

lemma v1Inv_parts {s : V1St} (h : v1Inv s = true) :
    s.ref.all v1OkL = true ∧ s.queue.all v1OkL = true ∧
    (!s.isOff || s.ref.isNone) = true := by
  simpa [v1Inv, Bool.and_eq_true, and_assoc] using h

lemma v1Step_inv {s : V1St} (e : V1Ev) (h : v1Inv s = true) :
    v1Inv (v1Step s e).1 = true := by
  obtain ⟨h1, h2, h3⟩ := v1Inv_parts h
  cases e with
  | powerOn =>
      cases ho : s.isOff
      · simpa [v1Step, ho] using h
      · simp [v1Step, ho, v1Inv, v1OkL, optAll_some, h2]
  | powerOff =>
      cases ho : s.isOff
      · cases hr : s.ref with
        | some l =>
            have hl : v1OkL l = true := by simpa [hr, optAll_some] using h1
            simp [v1Step, ho, hr, v1Inv, optAll_none, List.all_append, h2, hl]
        | none => simp [v1Step, ho, hr, v1Inv, optAll_none, h2]
      · simpa [v1Step, ho] using h
  | tap =>
      cases ho : s.isOff <;> simpa [v1Step, ho, v1Inv] using h
  | setVis b =>
      cases hb : b
      · simpa [v1Step, v1Inv] using h
      · cases hp : s.isPersistent
        · simpa [v1Step, hp, v1Inv] using h
        · cases ho : s.isOff
          · simp [v1Step, hp, ho, v1Inv, v1OkL, optAll_some, h2]
          · simpa [v1Step, hp, ho, v1Inv] using h
  | revoke =>
      cases hr : s.ref with
      | some l =>
          have hl : v1OkL l = true := by simpa [hr, optAll_some] using h1
          have ho : s.isOff = false := by
            cases hof : s.isOff
            · rfl
            · exfalso
              have h3' := h3
              rw [hof, hr] at h3'
              simp at h3'
          simp [v1Step, hr, v1Inv, optAll_some, List.all_append, h2, hl, ho]
      | none => simpa [v1Step, hr] using h
  | dispatchRel =>
      cases hq : s.queue with
      | nil => simpa [v1Step, hq] using h
      | cons l rest =>
          have hcons := h2
          rw [hq, List.all_cons, Bool.and_eq_true] at hcons
          obtain ⟨hl, hrest⟩ := hcons
          rcases v1ListenerRun_ok (l := l) { s with queue := rest } hl with heq | heq <;>
            simp only [v1Step, hq, heq] <;>
            simp [v1Inv, optAll_none, hrest, h1, h3]

lemma v1RunA_inv : ∀ (evs : List V1Ev) (s : V1St), v1Inv s = true →
    v1Inv (v1RunA s evs).1 = true := by
  intro evs
  induction evs with
  | nil => intro s h; exact h
  | cons e r ih => intro s h; exact ih _ (v1Step_inv e h)

lemma v1Run_inv (evs : List V1Ev) : v1Inv (v1Run evs) = true :=
  v1RunA_inv evs v1Init v1Inv_init

lemma v1_dispatch_quiet {s : V1St} (h : v1Inv s = true) :
    (v1Step s V1Ev.dispatchRel).2 = [] ∧
    (v1Step s V1Ev.dispatchRel).1.isOff = s.isOff ∧
    (s.ref = none → (v1Step s V1Ev.dispatchRel).1.ref = none) := by
  obtain ⟨h1, h2, h3⟩ := v1Inv_parts h
  cases hq : s.queue with
  | nil => simp [v1Step, hq]
  | cons l rest =>
      have hcons := h2
      rw [hq, List.all_cons, Bool.and_eq_true] at hcons
      rcases v1ListenerRun_ok (l := l) { s with queue := rest } hcons.1 with heq | heq <;>
        simp [v1Step, hq, heq]

lemma v1_powerOff_spec {s : V1St} (h : v1Inv s = true) :
    Act.wakeIssue ∉ (v1Step s V1Ev.powerOff).2 ∧
    (v1Step s V1Ev.powerOff).1.ref = none ∧
    (v1Step s V1Ev.powerOff).1.isOff = true := by
  obtain ⟨h1, h2, h3⟩ := v1Inv_parts h
  cases ho : s.isOff
  · cases hr : s.ref <;> simp [v1Step, ho, hr]
  · have hrn : s.ref = none := by
      cases hr : s.ref
      · rfl
      · rw [ho, hr] at h3; simp at h3
    simp [v1Step, ho, hrn]

lemma v1_dispatch_run : ∀ (k : Nat) {s : V1St}, v1Inv s = true → s.ref = none →
    Act.wakeIssue ∉ (v1RunA s (List.replicate k V1Ev.dispatchRel)).2 ∧
    (v1RunA s (List.replicate k V1Ev.dispatchRel)).1.ref = none := by
  intro k
  induction k with
  | zero => intro s _ hr; simpa [v1RunA] using hr
  | succ n ih =>
      intro s h hr
      obtain ⟨ha, _, hrf⟩ := v1_dispatch_quiet h
      obtain ⟨ih1, ih2⟩ := ih (v1Step_inv V1Ev.dispatchRel h) (hrf hr)
      rw [List.replicate_succ]
      refine ⟨?_, ih2⟩
      show Act.wakeIssue ∉ ((v1Step s V1Ev.dispatchRel).2
        ++ (v1RunA (v1Step s V1Ev.dispatchRel).1 (List.replicate n V1Ev.dispatchRel)).2)
      rw [ha]
      simpa using ih1

/-- C5 amended: in the persistent AOD variant, after `handlePowerOff` no
wake-guarantee request is ever issued again by release notifications: the
power-off step itself issues no request and clears the handle, and any number
of subsequently dispatched `release` events issue no request and leave the
handle cleared (each listener's guarded re-request call goes through a
closure whose captured `isOff` is true and returns immediately).  In any
reachable state, delivering a release notification issues no wake request at
all; a wake request is issued by a visibility event only when the surface
becomes visible while the session is persistent and not user-deactivated.
When no re-request happens the controller keeps its current state — it does
not transition to Off. -/
theorem c5_no_reacquire_after_poweroff (evs : List V1Ev) :
    (Act.wakeIssue ∉ (v1Step (v1Run evs) V1Ev.powerOff).2 ∧
     (v1Step (v1Run evs) V1Ev.powerOff).1.ref = none ∧
     (v1Step (v1Run evs) V1Ev.powerOff).1.isOff = true) ∧
    (∀ k : Nat,
       Act.wakeIssue ∉
         (v1RunA (v1Step (v1Run evs) V1Ev.powerOff).1
           (List.replicate k V1Ev.dispatchRel)).2 ∧
       (v1RunA (v1Step (v1Run evs) V1Ev.powerOff).1
           (List.replicate k V1Ev.dispatchRel)).1.ref = none) ∧
    Act.wakeIssue ∉ (v1Step (v1Run evs) V1Ev.dispatchRel).2 ∧
    (∀ (s : V1St) (b : Bool),
       Act.wakeIssue ∈ (v1Step s (V1Ev.setVis b)).2 →
       b = true ∧ s.isPersistent = true ∧ s.isOff = false) := by
  have hinv := v1Run_inv evs
  have hpo := v1_powerOff_spec hinv
  have hpoinv := v1Step_inv (s := v1Run evs) V1Ev.powerOff hinv
  refine ⟨hpo, fun k => v1_dispatch_run k hpoinv hpo.2.1, ?_, ?_⟩
  · rw [(v1_dispatch_quiet hinv).1]
    simp
  · intro s b hmem
    by_cases hg : (b && s.isPersistent && !s.isOff) = true
    · obtain ⟨⟨hb, hp⟩, hno⟩ :
          (b = true ∧ s.isPersistent = true) ∧ (!s.isOff) = true := by
        rw [Bool.and_eq_true, Bool.and_eq_true] at hg
        exact hg
      exact ⟨hb, hp, by simpa using hno⟩
    · simp only [Bool.not_eq_true] at hg
      simp [v1Step, hg] at hmem

/-- Witness for C5's amended theorem: at a concrete active, visible,
persistent state the visibility event does issue a wake request and the
theorem's conditions hold. -/
theorem c5_no_reacquire_witness :
    Act.wakeIssue ∈ (v1Step { v1Init with isOff := false } (V1Ev.setVis true)).2 ∧
    (true = true ∧ ({ v1Init with isOff := false } : V1St).isPersistent = true ∧
     ({ v1Init with isOff := false } : V1St).isOff = false) :=
  ⟨by decide,
    (c5_no_reacquire_after_poweroff []).2.2.2 { v1Init with isOff := false } true
      (by decide)⟩

/-- C5 counterexample: the claim also asserts that when the re-request
condition fails the controller transitions to Off.  In the persistent AOD
variant, after powering on, going hidden, and the platform revoking the wake
lock, the delivered release notification issues no re-request — and the
controller stays active (`isOff = false`), it does not transition to Off. -/
theorem c5_revoke_counterexample :
    (v1Step (v1Run [V1Ev.powerOn, V1Ev.setVis false, V1Ev.revoke])
        V1Ev.dispatchRel).2 = [] ∧
    (v1Step (v1Run [V1Ev.powerOn, V1Ev.setVis false, V1Ev.revoke])
        V1Ev.dispatchRel).1.isOff = false ∧
    (v1Step (v1Run [V1Ev.powerOn, V1Ev.setVis false, V1Ev.revoke])
        V1Ev.dispatchRel).1.ref = none := by
  decide

lemma appReq_frame (env : WEnv) (s : AppSt) :
    (appRequestWakeLock env s).1.isVisible = s.isVisible ∧
    (appRequestWakeLock env s).1.showSetup = s.showSetup ∧
    (appRequestWakeLock env s).1.timers = s.timers ∧
    (appRequestWakeLock env s).1.timerRef = s.timerRef ∧
    (appRequestWakeLock env s).1.nextTimer = s.nextTimer := by
  obtain ⟨hw, pr⟩ := env
  cases hw <;> cases pr <;> cases hr : s.ref <;> cases hv : s.videoExists <;>
    simp [appRequestWakeLock, appPrimaryTry, appFallback, hr, hv]

/-- Invariant of claim C1: the clock is visible, the settings panel closed,
and exactly one idle timer is pending, with deadline 5000 ms after the last
interaction time `t`. -/
def c1Inv (t : Nat) (s : AppSt) : Prop :=
  s.isVisible = true ∧ s.showSetup = false ∧
  ∃ id, s.timerRef = some id ∧ s.timers = [(id, t + 5000)]

lemma c1Inv_startTimer {t : Nat} {s : AppSt} (u : Nat) (h : c1Inv t s) :
    c1Inv u (appStartTimer u s) := by
  obtain ⟨hv, hs, id, hr, ht⟩ := h
  refine ⟨?_, ?_, s.nextTimer, ?_, ?_⟩ <;>
    simp [appStartTimer, hr, ht, hv, hs]

lemma c1Inv_start_fresh {s : AppSt} (u : Nat) (hv : s.isVisible = true)
    (hs : s.showSetup = false) (ht : s.timers = []) (hr : s.timerRef = none) :
    c1Inv u (appStartTimer u s) := by
  refine ⟨?_, ?_, s.nextTimer, ?_, ?_⟩ <;>
    simp [appStartTimer, hr, ht, hv, hs]

lemma c1Inv_interact (env : WEnv) {t : Nat} {s : AppSt} (u : Nat) (h : c1Inv t s) :
    c1Inv u (appStep env s (AEv.interact u)) := by
  obtain ⟨hv, hs, id, hr, ht⟩ := h
  have heq : appStep env s (AEv.interact u) = appStartTimer u s := by
    simp [appStep, appHandleInteraction, hs, hv]
  rw [heq]
  exact c1Inv_startTimer u ⟨hv, hs, id, hr, ht⟩

lemma c1Inv_fire (env : WEnv) {t : Nat} {s : AppSt} {u : Nat} (h : c1Inv t s)
    (_h1 : t ≤ u) (h2 : u - t < 5000) : appStep env s (AEv.fire u) = s := by
  obtain ⟨hv, hs, id, hr, ht⟩ := h
  have hne : (t + 5000 == u) = false := by
    simp only [beq_eq_false_iff_ne, ne_eq]
    omega
  simp [appStep, ht, hne]

lemma c1_base (env : WEnv) (t0 : Nat) :
    c1Inv t0 (appStep env appInit (AEv.interact t0)) := by
  obtain ⟨f1, f2, f3, f4, f5⟩ := appReq_frame env { appInit with isVisible := true }
  have heq : appStep env appInit (AEv.interact t0)
      = appStartTimer t0 (appRequestWakeLock env { appInit with isVisible := true }).1 := by
    simp [appStep, appHandleInteraction, appInit]
  rw [heq]
  exact c1Inv_start_fresh t0 (f1.trans rfl) (f2.trans rfl) (f3.trans rfl) (f4.trans rfl)

lemma c1_run (env : WEnv) : ∀ (evs : List AEv) (t : Nat) (s : AppSt),
    c1Inv t s → okFrom t evs = true →
    c1Inv (lastInteract t evs) (appRun env s evs) := by
  intro evs
  induction evs with
  | nil => intro t s h _; simpa [appRun, lastInteract] using h
  | cons e r ih =>
      intro t s h hok
      cases e with
      | interact u =>
          rw [okFrom, Bool.and_eq_true, Bool.and_eq_true] at hok
          obtain ⟨⟨_, _⟩, hrest⟩ := hok
          exact ih u _ (c1Inv_interact env u h) hrest
      | fire u =>
          rw [okFrom, Bool.and_eq_true, Bool.and_eq_true] at hok
          obtain ⟨⟨hle, hlt⟩, hrest⟩ := hok
          have hstep := c1Inv_fire env h (of_decide_eq_true hle) (of_decide_eq_true hlt)
          show c1Inv (lastInteract t r) (appRun env (appStep env s (AEv.fire u)) r)
          rw [hstep]
          exact ih t s h hrest
      | hide => simp [okFrom] at hok

lemma okFrom_append : ∀ (p : List AEv) (t : Nat) (q : List AEv),
    okFrom t (p ++ q) = true → okFrom t p = true := by
  intro p
  induction p with
  | nil => intro t q _; rfl
  | cons e r ih =>
      intro t q hok
      cases e with
      | interact u =>
          simp only [List.cons_append, okFrom, Bool.and_eq_true] at hok ⊢
          exact ⟨hok.1, ih u q hok.2⟩
      | fire u =>
          simp only [List.cons_append, okFrom, Bool.and_eq_true] at hok ⊢
          exact ⟨hok.1, ih t q hok.2⟩
      | hide => simp only [List.cons_append, okFrom] at hok; cases hok

/-- At most one idle timer is ever pending: either none, or exactly the one
whose identifier `timerRef` holds. -/
def appTimersOk (s : AppSt) : Prop :=
  s.timers = [] ∨ ∃ id d, s.timers = [(id, d)] ∧ s.timerRef = some id

lemma timersOk_of_frame {s t : AppSt} (ht : t.timers = s.timers)
    (hr : t.timerRef = s.timerRef) (h : appTimersOk s) : appTimersOk t := by
  rcases h with h | ⟨id, d, h1, h2⟩
  · exact Or.inl (ht.trans h)
  · exact Or.inr ⟨id, d, ht.trans h1, hr.trans h2⟩

lemma timersOk_startTimer {s : AppSt} (t : Nat) (h : appTimersOk s) :
    appTimersOk (appStartTimer t s) := by
  rcases h with h | ⟨id, d, ht, hr⟩
  · refine Or.inr ⟨s.nextTimer, t + 5000, ?_, ?_⟩ <;>
      cases hrf : s.timerRef <;> simp [appStartTimer, h, hrf]
  · refine Or.inr ⟨s.nextTimer, t + 5000, ?_, ?_⟩ <;>
      simp [appStartTimer, hr, ht]

lemma timersOk_turnOff {s : AppSt} (h : appTimersOk s) :
    appTimersOk (appTurnOff s) := by
  left
  rcases h with h | ⟨id, d, ht, hr⟩
  · cases hrf : s.timerRef <;> cases hr2 : s.ref <;>
      simp [appTurnOff, appReleaseWakeLock, h, hrf, hr2]
  · cases hr2 : s.ref <;>
      simp [appTurnOff, appReleaseWakeLock, ht, hr, hr2]

lemma timersOk_step (env : WEnv) {s : AppSt} (e : AEv) (h : appTimersOk s) :
    appTimersOk (appStep env s e) := by
  cases e with
  | interact u =>
      cases hss : s.showSetup
      · cases hv : s.isVisible
        · have heq : appStep env s (AEv.interact u)
              = appStartTimer u (appRequestWakeLock env { s with isVisible := true }).1 := by
            simp [appStep, appHandleInteraction, hss, hv]
          rw [heq]
          obtain ⟨_, _, f3, f4, _⟩ := appReq_frame env { s with isVisible := true }
          exact timersOk_startTimer u (timersOk_of_frame f3 f4 h)
        · have heq : appStep env s (AEv.interact u) = appStartTimer u s := by
            simp [appStep, appHandleInteraction, hss, hv]
          rw [heq]
          exact timersOk_startTimer u h
      · simpa [appStep, appHandleInteraction, hss] using h
  | fire u =>
      by_cases ha : s.timers.any (fun p => p.2 == u) = true
      · have hmid : appTimersOk { s with timers := s.timers.filter (fun p => p.2 != u) } := by
          rcases h with h | ⟨id, d, ht, hr⟩
          · left; simp [h]
          · cases hdu : (d == u)
            · have hne : ¬ d = u := by simpa using hdu
              exact Or.inr ⟨id, d, by simp [ht, hne], hr⟩
            · have hde : d = u := by simpa using hdu
              left; simp [ht, hde]
        have := timersOk_turnOff hmid
        simpa [appStep, ha] using this
      · simpa [appStep, ha] using h
  | hide => exact timersOk_turnOff h

lemma timersOk_run (env : WEnv) : ∀ (evs : List AEv) (s : AppSt),
    appTimersOk s → appTimersOk (appRun env s evs) := by
  intro evs
  induction evs with
  | nil => intro s h; exact h
  | cons e r ih => intro s h; exact ih _ (timersOk_step env e h)

lemma timersOk_length {s : AppSt} (h : appTimersOk s) : s.timers.length ≤ 1 := by
  rcases h with h | ⟨id, d, ht, _⟩
  · simp [h]
  · simp [ht]

/-- C1: in `App.tsx`, for every activation followed by interactions spaced
less than 5 seconds apart (with timer firings only possible at their
scheduled deadlines), the session never transitions to Off via idle expiry —
the clock is visible after every prefix; after the last interaction exactly
one idle deadline is pending, at 5000 ms past that interaction, and when it
fires the session transitions to Off with the wake lock released and the
fallback stopped; and every interaction reschedules by cancel-then-schedule,
so at most one deadline is ever pending, over arbitrary event traces. -/
theorem c1_idle_expiry (env : WEnv) (t0 : Nat) (rest : List AEv)
    (hok : okFrom t0 rest = true) :
    (∀ p q : List AEv, rest = p ++ q →
       (appRun env appInit (AEv.interact t0 :: p)).isVisible = true) ∧
    (∃ id, (appRun env appInit (AEv.interact t0 :: rest)).timerRef = some id ∧
       (appRun env appInit (AEv.interact t0 :: rest)).timers
         = [(id, lastInteract t0 rest + 5000)]) ∧
    ((appStep env (appRun env appInit (AEv.interact t0 :: rest))
        (AEv.fire (lastInteract t0 rest + 5000))).isVisible = false ∧
     (appStep env (appRun env appInit (AEv.interact t0 :: rest))
        (AEv.fire (lastInteract t0 rest + 5000))).ref = none ∧
     (appStep env (appRun env appInit (AEv.interact t0 :: rest))
        (AEv.fire (lastInteract t0 rest + 5000))).videoPlaying = false) ∧
    (∀ evs : List AEv, (appRun env appInit evs).timers.length ≤ 1) := by
  have hbase := c1_base env t0
  have hfull : c1Inv (lastInteract t0 rest)
      (appRun env appInit (AEv.interact t0 :: rest)) :=
    c1_run env rest t0 _ hbase hok
  obtain ⟨hv, hs, id, hr, ht⟩ := hfull
  refine ⟨?_, ⟨id, hr, ht⟩, ?_, ?_⟩
  · intro p q hpq
    have hokp : okFrom t0 p = true := okFrom_append p t0 q (by rw [← hpq]; exact hok)
    exact (c1_run env p t0 _ hbase hokp).1
  · have heq : appStep env (appRun env appInit (AEv.interact t0 :: rest))
        (AEv.fire (lastInteract t0 rest + 5000))
        = appTurnOff { appRun env appInit (AEv.interact t0 :: rest) with
            timers := (appRun env appInit (AEv.interact t0 :: rest)).timers.filter
              (fun p => p.2 != lastInteract t0 rest + 5000) } := by
      simp [appStep, ht]
    rw [heq]
    exact ⟨(appTurnOff_spec _).1, (appTurnOff_spec _).2.1, (appTurnOff_spec _).2.2.1⟩
  · intro evs
    exact timersOk_length (timersOk_run env evs appInit (Or.inl rfl))

/-- Witness for C1 at a concrete two-interaction trace spaced 3 seconds
apart: the session is still visible after both interactions. -/
theorem c1_idle_expiry_witness :
    okFrom 0 [AEv.interact 3000] = true ∧
    (appRun ⟨true, .ok⟩ appInit [AEv.interact 0, AEv.interact 3000]).isVisible = true :=
  ⟨by decide,
    (c1_idle_expiry ⟨true, .ok⟩ 0 [AEv.interact 3000] (by decide)).1
      [AEv.interact 3000] [] rfl⟩
